import Mathlib

/-!
Verification of the shortlink API core (`src/main.py`) against its
natural-language specification.

The service keeps a table of `ShortLink` rows (SQLite via SQLAlchemy) with a
unique index on `short_code`.  We embed the table as a `List ShortLink` (rows
in insertion order) and each endpoint handler as a pure function from the
store (plus the request data and the current time) to the new store and the
response.  Timestamps are modelled as `Nat`; the randomness of
`random.choice` in `generate_short_code` is modelled by an injected choice
function giving, for each attempt and each character position, the index of
the chosen character.
-/

/-- One row of the `shortlinks` table (class `ShortLink` in `src/main.py`).
The `id` primary key plays no role in any handler and is omitted. -/
structure ShortLink where
  short_code : String
  target_url : String
  created_at : Nat
  click_count : Nat
  last_clicked_at : Option Nat
  active : Bool
  note : Option String
deriving Repr, DecidableEq

/-- `string.ascii_letters + string.digits`: the 62-character alphabet used by
`generate_short_code`. -/
def codeChars : List Char :=
  "abcdefghijklmnopqrstuvwxyzABCDEFGHIJKLMNOPQRSTUVWXYZ0123456789".toList

/-- `generate_short_code(length)`: a string of `length` characters, each drawn
from `codeChars`.  The draw `random.choice(chars)` at position `i` is modelled
by `choice i`, reduced mod the alphabet size so every choice function denotes
a valid sequence of draws. -/
def generate_short_code (choice : Nat → Nat) (length : Nat) : String :=
  String.mk ((List.range length).map
    (fun i => codeChars.getD (choice i % codeChars.length) 'a'))

/-- `db.query(ShortLink).filter(ShortLink.short_code == code).first()`:
the row with the given code, ignoring the `active` flag. -/
def findAnyLink (store : List ShortLink) (code : String) : Option ShortLink :=
  store.find? (fun l => l.short_code == code)

/-- `db.query(ShortLink).filter(ShortLink.short_code == code,
ShortLink.active == True).first()`: the row with the given code that is
active. -/
def findActiveLink (store : List ShortLink) (code : String) : Option ShortLink :=
  store.find? (fun l => l.short_code == code && l.active)

/-- The errors `create_link` can raise (HTTP 400 "Custom code already in
use." and HTTP 500 "Failed to generate unique short code."). -/
inductive CreateError where
  | customCodeTaken
  | generationExhausted
deriving Repr, DecidableEq

/-- The row inserted by `create_link`: `ShortLink(short_code=..,
target_url=.., note=..)` with column defaults `created_at=now`,
`click_count=0`, `last_clicked_at=NULL`, `active=True`. -/
def mkLink (code url : String) (note : Option String) (now : Nat) : ShortLink :=
  { short_code := code
    target_url := url
    created_at := now
    click_count := 0
    last_clicked_at := none
    active := true
    note := note }

/-- The `for _ in range(10)` generation loop of `create_link`: starting at
attempt `i` with `fuel` attempts left, generate a candidate, return it if no
row has that code, otherwise retry; `none` when all attempts collide (the
`for`-`else` branch). -/
def pickFresh (store : List ShortLink) (gen : Nat → String) :
    Nat → Nat → Option String
  | _, 0 => none
  | i, fuel + 1 =>
    let c := gen i
    if (findAnyLink store c).isSome then pickFresh store gen (i + 1) fuel
    else some c

/-- The `else` (no custom code) branch of `create_link`: up to 10 generation
attempts, then insert, or HTTP 500 with nothing persisted. -/
def autoCreate (store : List ShortLink) (choices : Nat → Nat → Nat)
    (url : String) (note : Option String) (now : Nat) :
    List ShortLink × Except CreateError ShortLink :=
  match pickFresh store (fun i => generate_short_code (choices i) 7) 0 10 with
  | none => (store, Except.error CreateError.generationExhausted)
  | some c => (store ++ [mkLink c url note now], Except.ok (mkLink c url note now))

/-- `create_link` (POST /links).  `if payload.custom_code:` is Python
truthiness: `None` and `""` both fall through to the auto-generation branch.
A truthy custom code is checked for existence and either rejected (400) or
inserted verbatim; no charset or length validation is performed. -/
def create_link (store : List ShortLink) (choices : Nat → Nat → Nat)
    (url : String) (custom_code : Option String) (note : Option String)
    (now : Nat) : List ShortLink × Except CreateError ShortLink :=
  match custom_code with
  | some cc =>
    if cc = "" then autoCreate store choices url note now
    else if (findAnyLink store cc).isSome then
      (store, Except.error CreateError.customCodeTaken)
    else (store ++ [mkLink cc url note now], Except.ok (mkLink cc url note now))
  | none => autoCreate store choices url note now

/-- The mutation `link.click_count += 1; link.last_clicked_at =
datetime.utcnow()` applied to a row. -/
def clicked (l : ShortLink) (now : Nat) : ShortLink :=
  { l with click_count := l.click_count + 1, last_clicked_at := some now }

/-- Commit of the click mutation: the first row matching `code` and active is
replaced by its clicked version; every other row is untouched. -/
def recordClick : List ShortLink → String → Nat → List ShortLink
  | [], _, _ => []
  | l :: rest, code, now =>
    if l.short_code == code && l.active then clicked l now :: rest
    else l :: recordClick rest code now

/-- `redirect_link` (GET /\x7bcode\x7d): find the active row; on `None` raise
404 with the store untouched; otherwise increment its click count, stamp
`last_clicked_at`, commit, and return the target URL. -/
def redirect_link (store : List ShortLink) (code : String) (now : Nat) :
    List ShortLink × Option String :=
  match findActiveLink store code with
  | none => (store, none)
  | some l => (recordClick store code now, some l.target_url)

/-- `get_stats` (GET /stats/\x7bcode\x7d): the row regardless of `active`,
`none` meaning HTTP 404; the store is never modified. -/
def get_stats (store : List ShortLink) (code : String) : Option ShortLink :=
  findAnyLink store code

/-- Commit of `link.active = False`: the first row matching `code` is
deactivated; every other row is untouched. -/
def setInactive : List ShortLink → String → List ShortLink
  | [], _ => []
  | l :: rest, code =>
    if l.short_code == code then { l with active := false } :: rest
    else l :: setInactive rest code

/-- `deactivate_link` (POST /links/\x7bcode\x7d/deactivate): find the row
regardless of `active` (404 if absent, store untouched), set `active = False`,
commit, and return the refreshed row. -/
def deactivate_link (store : List ShortLink) (code : String) :
    List ShortLink × Option ShortLink :=
  match findAnyLink store code with
  | none => (store, none)
  | some l => (setInactive store code, some { l with active := false })

/-- `ShortLink.created_at.desc()`: row `a` precedes row `b` when `a` was
created no earlier than `b`. -/
def byCreatedDesc (a b : ShortLink) : Prop := b.created_at ≤ a.created_at

instance : DecidableRel byCreatedDesc := fun a b =>
  Nat.decLe b.created_at a.created_at

instance : IsTotal ShortLink byCreatedDesc :=
  ⟨fun a b => Nat.le_total b.created_at a.created_at⟩

instance : IsTrans ShortLink byCreatedDesc :=
  ⟨fun _ _ _ h1 h2 => Nat.le_trans h2 h1⟩

/-- `list_links` (GET /links): the query ordered by `created_at` descending,
`total = q.count()` (the full count, before paging), and the page
`q.offset(skip).limit(limit)`. -/
def list_links (store : List ShortLink) (skip limit : Nat) :
    Nat × List ShortLink :=
  let q := List.insertionSort byCreatedDesc store
  (store.length, (q.drop skip).take limit)

/-- The operations that touch the store, for stating invariants over
arbitrary operation sequences. -/
inductive Op where
  | create (choices : Nat → Nat → Nat) (url : String) (cc : Option String)
      (note : Option String) (now : Nat)
  | redirect (code : String) (now : Nat)
  | stats (code : String)
  | list (skip limit : Nat)
  | deactivate (code : String)

/-- The store after one operation (reads leave it unchanged; failed writes
leave it unchanged by construction of the handlers). -/
def applyOp (store : List ShortLink) : Op → List ShortLink
  | Op.create choices url cc note now => (create_link store choices url cc note now).1
  | Op.redirect code now => (redirect_link store code now).1
  | Op.stats _ => store
  | Op.list _ _ => store
  | Op.deactivate code => (deactivate_link store code).1

/-- The store after a sequence of operations, starting from the empty
table. -/
def runOps (init : List ShortLink) (ops : List Op) : List ShortLink :=
  ops.foldl applyOp init

/-- The click-accounting invariant of one row: `last_clicked_at` is non-null
iff `click_count > 0`. -/
def clickInv (l : ShortLink) : Prop :=
  l.last_clicked_at.isSome = true ↔ 0 < l.click_count

instance (l : ShortLink) : Decidable (clickInv l) := by
  unfold clickInv; infer_instance

/-- The click-accounting invariant over the whole store. -/
def storeInv (store : List ShortLink) : Prop :=
  ∀ l ∈ store, clickInv l

instance (store : List ShortLink) : Decidable (storeInv store) :=
  List.decidableBAll _ store

/-! ### Lemmas about the row lookups -/

theorem findAnyLink_isSome_iff (store : List ShortLink) (code : String) :
    (findAnyLink store code).isSome = true ↔ ∃ l ∈ store, l.short_code = code := by
  simp [findAnyLink, List.find?_isSome]

theorem findAnyLink_eq_none_iff (store : List ShortLink) (code : String) :
    findAnyLink store code = none ↔ ∀ l ∈ store, l.short_code ≠ code := by
  simp [findAnyLink, List.find?_eq_none]

theorem findActiveLink_first (pre post : List ShortLink) (l : ShortLink)
    (code : String) (hpre : ∀ p ∈ pre, p.short_code ≠ code)
    (hcode : l.short_code = code) (hact : l.active = true) :
    findActiveLink (pre ++ l :: post) code = some l := by
  induction pre with
  | nil => simp [findActiveLink, List.find?_cons, hcode, hact]
  | cons p ps ih =>
      have hp : p.short_code ≠ code := hpre p (by simp)
      have ihs := ih (fun q hq => hpre q (by simp [hq]))
      simpa [findActiveLink, List.find?_cons, hp] using ihs

theorem findActiveLink_eq_none_iff (store : List ShortLink) (code : String) :
    findActiveLink store code = none ↔
      ∀ l ∈ store, l.short_code = code → l.active = false := by
  simp only [findActiveLink, List.find?_eq_none, Bool.and_eq_true, beq_iff_eq,
    not_and, Bool.not_eq_true]

theorem recordClick_first (pre post : List ShortLink) (l : ShortLink)
    (code : String) (now : Nat) (hpre : ∀ p ∈ pre, p.short_code ≠ code)
    (hcode : l.short_code = code) (hact : l.active = true) :
    recordClick (pre ++ l :: post) code now = pre ++ clicked l now :: post := by
  induction pre with
  | nil => simp [recordClick, hcode, hact]
  | cons p ps ih =>
      have hp : p.short_code ≠ code := hpre p (by simp)
      have ihs := ih (fun q hq => hpre q (by simp [hq]))
      simp [recordClick, hp, ihs]

/-- C1: if a link with the requested code exists and is active (being the
first such row, which the unique index on `short_code` guarantees), redirect
increments exactly that link's `click_count` by 1, sets its `last_clicked_at`
to the current time, returns its `target_url`, and leaves its other fields
and all other rows unchanged; if every row with that code is inactive, or no
row has that code, redirect returns the untouched store together with the
same uniform not-found response, so absent and inactive codes are
indistinguishable to the caller. -/
theorem C1_redirect_correct :
    (∀ (pre post : List ShortLink) (l : ShortLink) (code : String) (now : Nat),
      (∀ p ∈ pre, p.short_code ≠ code) → l.short_code = code →
      l.active = true →
      redirect_link (pre ++ l :: post) code now =
        (pre ++ clicked l now :: post, some l.target_url))
    ∧ (∀ (store : List ShortLink) (code : String) (now : Nat),
      (∀ l ∈ store, l.short_code = code → l.active = false) →
      redirect_link store code now = (store, none)) := by
  constructor
  · intro pre post l code now hpre hcode hact
    simp [redirect_link, findActiveLink_first pre post l code hpre hcode hact,
      recordClick_first pre post l code now hpre hcode hact]
  · intro store code now h
    simp [redirect_link, (findActiveLink_eq_none_iff store code).2 h]

/-- Witness for C1 on a concrete one-row store. -/
theorem C1_redirect_correct_witness :
    redirect_link [mkLink "ab" "http://t" none 0] "ab" 9 =
      ([clicked (mkLink "ab" "http://t" none 0) 9], some "http://t") :=
  C1_redirect_correct.1 [] [] (mkLink "ab" "http://t" none 0) "ab" 9
    (fun _ hp => nomatch hp) rfl rfl

/-! ### The shape of each handler's store update -/

theorem create_link_fst (store : List ShortLink) (choices : Nat → Nat → Nat)
    (url : String) (cc : Option String) (note : Option String) (now : Nat) :
    (create_link store choices url cc note now).1 = store ∨
    ∃ c, (create_link store choices url cc note now).1 =
      store ++ [mkLink c url note now] := by
  have hauto : (autoCreate store choices url note now).1 = store ∨
      ∃ c, (autoCreate store choices url note now).1 =
        store ++ [mkLink c url note now] := by
    unfold autoCreate
    cases hp : pickFresh store (fun i => generate_short_code (choices i) 7) 0 10 with
    | none => exact Or.inl rfl
    | some c => exact Or.inr ⟨c, rfl⟩
  cases cc with
  | none => simpa [create_link] using hauto
  | some s =>
    by_cases hs : s = ""
    · simpa [create_link, hs] using hauto
    · by_cases he : (findAnyLink store s).isSome
      · exact Or.inl (by simp [create_link, hs, he])
      · exact Or.inr ⟨s, by simp [create_link, hs, he]⟩

theorem create_link_ok (store : List ShortLink) (choices : Nat → Nat → Nat)
    (url : String) (cc : Option String) (note : Option String) (now : Nat)
    (link : ShortLink)
    (h : (create_link store choices url cc note now).2 = Except.ok link) :
    ∃ c, link = mkLink c url note now ∧
      (create_link store choices url cc note now).1 =
        store ++ [mkLink c url note now] := by
  have hauto : ∀ hh : (autoCreate store choices url note now).2 = Except.ok link,
      ∃ c, link = mkLink c url note now ∧
        (autoCreate store choices url note now).1 =
          store ++ [mkLink c url note now] := by
    unfold autoCreate
    cases hp : pickFresh store (fun i => generate_short_code (choices i) 7) 0 10 with
    | none => intro hh; exact absurd hh (by simp)
    | some c => intro hh; exact ⟨c, by simpa using hh.symm, rfl⟩
  cases cc with
  | none => exact hauto (by simpa [create_link] using h)
  | some s =>
    by_cases hs : s = ""
    · have h2 : (autoCreate store choices url note now).2 = Except.ok link := by
        simpa [create_link, hs] using h
      simpa [create_link, hs] using hauto h2
    · by_cases he : (findAnyLink store s).isSome
      · exact absurd h (by simp [create_link, hs, he])
      · refine ⟨s, ?_, by simp [create_link, hs, he]⟩
        have := h
        simp [create_link, hs, he] at this
        exact this.symm

theorem redirect_link_fst (store : List ShortLink) (code : String) (now : Nat) :
    (redirect_link store code now).1 = store ∨
    (redirect_link store code now).1 = recordClick store code now := by
  unfold redirect_link
  cases h : findActiveLink store code with
  | none => exact Or.inl rfl
  | some l => exact Or.inr rfl

theorem deactivate_link_fst (store : List ShortLink) (code : String) :
    (deactivate_link store code).1 = store ∨
    (deactivate_link store code).1 = setInactive store code := by
  unfold deactivate_link
  cases h : findAnyLink store code with
  | none => exact Or.inl rfl
  | some l => exact Or.inr rfl

/-! ### The click-accounting invariant (C6) -/

theorem storeInv_nil : storeInv [] := fun _ hl => nomatch hl

theorem storeInv_cons (l : ShortLink) (rest : List ShortLink) :
    storeInv (l :: rest) ↔ clickInv l ∧ storeInv rest := by
  simp [storeInv]

theorem clickInv_mkLink (code url : String) (note : Option String) (now : Nat) :
    clickInv (mkLink code url note now) := by
  simp [clickInv, mkLink]

theorem clickInv_clicked (l : ShortLink) (now : Nat) :
    clickInv (clicked l now) := by
  simp [clickInv, clicked]

theorem storeInv_append (s t : List ShortLink) (hs : storeInv s)
    (ht : storeInv t) : storeInv (s ++ t) := by
  intro l hl
  rcases List.mem_append.1 hl with h | h
  · exact hs l h
  · exact ht l h

theorem storeInv_recordClick (store : List ShortLink) (code : String)
    (now : Nat) (h : storeInv store) : storeInv (recordClick store code now) := by
  induction store with
  | nil => simpa [recordClick] using h
  | cons l rest ih =>
      rw [storeInv_cons] at h
      by_cases hc : (l.short_code == code && l.active) = true
      · rw [recordClick, if_pos hc, storeInv_cons]
        exact ⟨clickInv_clicked l now, h.2⟩
      · rw [recordClick, if_neg hc, storeInv_cons]
        exact ⟨h.1, ih h.2⟩

theorem storeInv_setInactive (store : List ShortLink) (code : String)
    (h : storeInv store) : storeInv (setInactive store code) := by
  induction store with
  | nil => simpa [setInactive] using h
  | cons l rest ih =>
      rw [storeInv_cons] at h
      by_cases hc : (l.short_code == code) = true
      · rw [setInactive, if_pos hc, storeInv_cons]
        refine ⟨?_, h.2⟩
        have := h.1
        simpa [clickInv] using this
      · rw [setInactive, if_neg hc, storeInv_cons]
        exact ⟨h.1, ih h.2⟩

theorem storeInv_applyOp (store : List ShortLink) (op : Op)
    (h : storeInv store) : storeInv (applyOp store op) := by
  cases op with
  | create choices url cc note now =>
      rcases create_link_fst store choices url cc note now with heq | ⟨c, heq⟩
      · rw [applyOp, heq]; exact h
      · rw [applyOp, heq]
        exact storeInv_append _ _ h
          (fun l hl => by
            rw [List.mem_singleton.1 hl]; exact clickInv_mkLink c url note now)
  | redirect code now =>
      rcases redirect_link_fst store code now with heq | heq
      · rw [applyOp, heq]; exact h
      · rw [applyOp, heq]; exact storeInv_recordClick store code now h
  | stats code => exact h
  | list skip limit => exact h
  | deactivate code =>
      rcases deactivate_link_fst store code with heq | heq
      · rw [applyOp, heq]; exact h
      · rw [applyOp, heq]; exact storeInv_setInactive store code h

theorem storeInv_runOps (ops : List Op) :
    ∀ store, storeInv store → storeInv (runOps store ops) := by
  induction ops with
  | nil => intro store h; exact h
  | cons op rest ih =>
      intro store h
      exact ih (applyOp store op) (storeInv_applyOp store op h)

/-- C6: every freshly created link starts with `click_count = 0` and
`last_clicked_at` null, every operation preserves the biconditional
"`last_clicked_at` is non-null iff `click_count > 0`" for every row, and
hence the invariant holds after every sequence of operations started from
the empty store. -/
theorem C6_click_count_invariant :
    (∀ (store : List ShortLink) (choices : Nat → Nat → Nat)
        (url : String) (cc : Option String) (note : Option String)
        (now : Nat) (link : ShortLink),
      (create_link store choices url cc note now).2 = Except.ok link →
      link.click_count = 0 ∧ link.last_clicked_at = none)
    ∧ (∀ (store : List ShortLink) (op : Op),
        storeInv store → storeInv (applyOp store op))
    ∧ (∀ ops : List Op, storeInv (runOps [] ops)) := by
  refine ⟨?_, storeInv_applyOp, fun ops => storeInv_runOps ops [] storeInv_nil⟩
  intro store choices url cc note now link h
  rcases create_link_ok store choices url cc note now link h with ⟨c, hl, _⟩
  rw [hl]
  exact ⟨rfl, rfl⟩

/-- Witness for C6: a concrete store satisfying the invariant still
satisfies it after a redirect that bumps a counter. -/
theorem C6_click_count_invariant_witness :
    storeInv (applyOp [mkLink "ab" "http://t" none 0] (Op.redirect "ab" 5)) :=
  C6_click_count_invariant.2.1 [mkLink "ab" "http://t" none 0]
    (Op.redirect "ab" 5) (by decide)

/-! ### Stats lookup (C7) and deactivation (C8) -/

/-- The `unique=True` index on `short_code`: no two rows share a code. -/
def codesUnique (store : List ShortLink) : Prop :=
  store.Pairwise (fun a b => a.short_code ≠ b.short_code)

theorem findAnyLink_some_sound (store : List ShortLink) (code : String)
    (l : ShortLink) (h : findAnyLink store code = some l) :
    l ∈ store ∧ l.short_code = code := by
  refine ⟨List.mem_of_find?_eq_some h, ?_⟩
  have := List.find?_some h
  simpa using this

theorem findAnyLink_of_mem (store : List ShortLink) (code : String)
    (l : ShortLink) (hu : codesUnique store) (hm : l ∈ store)
    (hc : l.short_code = code) : findAnyLink store code = some l := by
  induction store with
  | nil => exact absurd hm (List.not_mem_nil l)
  | cons p rest ih =>
      rcases List.mem_cons.1 hm with rfl | hrest
      · simp [findAnyLink, List.find?_cons, hc]
      · have hp : p.short_code ≠ code := by
          have := (List.pairwise_cons.1 hu).1 l hrest
          rw [hc] at this; exact this
        have hrec := ih (List.pairwise_cons.1 hu).2 hrest
        simpa [findAnyLink, List.find?_cons, hp] using hrec

theorem findAnyLink_setInactive (store : List ShortLink) (code : String)
    (l : ShortLink) (h : findAnyLink store code = some l) :
    findAnyLink (setInactive store code) code =
      some { l with active := false } := by
  induction store with
  | nil => simp [findAnyLink] at h
  | cons p rest ih =>
      by_cases hp : (p.short_code == code) = true
      · have hpl : p = l := by
          simpa [findAnyLink, List.find?_cons, hp] using h
        rw [setInactive, if_pos hp]
        subst hpl
        simp [findAnyLink, List.find?_cons, hp]
      · have h2 : findAnyLink rest code = some l := by
          simpa [findAnyLink, List.find?_cons, hp] using h
        rw [setInactive, if_neg hp]
        simpa [findAnyLink, List.find?_cons, hp] using ih h2

theorem setInactive_idem (store : List ShortLink) (code : String) :
    setInactive (setInactive store code) code = setInactive store code := by
  induction store with
  | nil => rfl
  | cons p rest ih =>
      by_cases hp : (p.short_code == code) = true
      · rw [setInactive, if_pos hp, setInactive, if_pos (by simpa using hp)]
      · rw [setInactive, if_neg hp, setInactive, if_neg hp, ih]

/-- C7: `get_stats` never modifies the store and is active-blind: any row it
returns is in the store with the requested code; it fails exactly when no
row has the code, whether active or not; with the unique index, the row with
the code (active or inactive) is the one returned; and after a deactivation
of that code it still returns the same record, now with `active = false`. -/
theorem C7_get_stats_correct :
    (∀ (store : List ShortLink) (code : String) (l : ShortLink),
      get_stats store code = some l → l ∈ store ∧ l.short_code = code)
    ∧ (∀ (store : List ShortLink) (code : String),
      get_stats store code = none ↔ ∀ l ∈ store, l.short_code ≠ code)
    ∧ (∀ (store : List ShortLink) (code : String) (l : ShortLink),
      codesUnique store → l ∈ store → l.short_code = code →
      get_stats store code = some l)
    ∧ (∀ (store : List ShortLink) (code : String) (l : ShortLink),
      get_stats store code = some l →
      get_stats (deactivate_link store code).1 code =
        some { l with active := false }) := by
  refine ⟨fun store code l h => findAnyLink_some_sound store code l h,
    fun store code => findAnyLink_eq_none_iff store code,
    fun store code l hu hm hc => findAnyLink_of_mem store code l hu hm hc,
    ?_⟩
  intro store code l h
  rw [get_stats] at h
  rw [deactivate_link, h]
  exact findAnyLink_setInactive store code l h

/-- Witness for C7 on a concrete store: stats of an inactive row. -/
theorem C7_get_stats_correct_witness :
    get_stats [{ mkLink "ab" "http://t" none 0 with active := false },
        mkLink "cd" "http://u" none 1] "ab" =
      some { mkLink "ab" "http://t" none 0 with active := false } :=
  C7_get_stats_correct.2.2.1
    [{ mkLink "ab" "http://t" none 0 with active := false },
      mkLink "cd" "http://u" none 1] "ab"
    { mkLink "ab" "http://t" none 0 with active := false }
    (by simp [codesUnique, mkLink]) (by simp) rfl

/-- C8: deactivation of an existing code succeeds and returns the record
with `active = false`; the store then holds that record under the code; a
second deactivation also succeeds, returns the same record, and leaves the
store exactly as after the first — idempotence. -/
theorem C8_deactivate_idempotent :
    ∀ (store : List ShortLink) (code : String) (l : ShortLink),
      findAnyLink store code = some l →
      deactivate_link store code =
        (setInactive store code, some { l with active := false })
      ∧ findAnyLink (setInactive store code) code =
          some { l with active := false }
      ∧ deactivate_link (setInactive store code) code =
          (setInactive store code, some { l with active := false }) := by
  intro store code l h
  have h1 : deactivate_link store code =
      (setInactive store code, some { l with active := false }) := by
    rw [deactivate_link, h]
  have h2 := findAnyLink_setInactive store code l h
  refine ⟨h1, h2, ?_⟩
  rw [deactivate_link, h2, setInactive_idem]

/-- Witness for C8: deactivating an active row twice on a concrete store. -/
theorem C8_deactivate_idempotent_witness :
    deactivate_link (setInactive [mkLink "ab" "http://t" none 0] "ab") "ab" =
      (setInactive [mkLink "ab" "http://t" none 0] "ab",
        some { mkLink "ab" "http://t" none 0 with active := false }) :=
  (C8_deactivate_idempotent [mkLink "ab" "http://t" none 0] "ab"
    (mkLink "ab" "http://t" none 0) rfl).2.2

/-! ### Listing (C9) -/

/-- C9: `list_links` reports as total the full number of rows, independent of
the requested page; the items are exactly the requested page (drop `skip`,
take `limit`) of the query result, which is a permutation of the store sorted
by `created_at` descending; in particular the returned page itself is sorted
by `created_at` descending. -/
theorem C9_list_links_correct :
    ∀ (store : List ShortLink) (skip limit : Nat),
      (list_links store skip limit).1 = store.length
      ∧ (list_links store skip limit).2 =
          ((List.insertionSort byCreatedDesc store).drop skip).take limit
      ∧ (List.insertionSort byCreatedDesc store).Perm store
      ∧ List.Sorted byCreatedDesc (List.insertionSort byCreatedDesc store)
      ∧ List.Sorted byCreatedDesc (list_links store skip limit).2 := by
  intro store skip limit
  refine ⟨rfl, rfl, List.perm_insertionSort byCreatedDesc store,
    List.sorted_insertionSort byCreatedDesc store, ?_⟩
  have hsub : List.Sublist
      (((List.insertionSort byCreatedDesc store).drop skip).take limit)
      (List.insertionSort byCreatedDesc store) :=
    (List.take_sublist _ _).trans (List.drop_sublist _ _)
  exact List.Pairwise.sublist hsub
    (List.sorted_insertionSort byCreatedDesc store)

/-! ### The generation loop (C4, C10) -/

theorem pickFresh_none (store : List ShortLink) (gen : Nat → String) :
    ∀ (fuel i : Nat),
      (∀ k, i ≤ k → k < i + fuel →
        (findAnyLink store (gen k)).isSome = true) →
      pickFresh store gen i fuel = none := by
  intro fuel
  induction fuel with
  | zero => intro i _; rfl
  | succ n ih =>
      intro i h
      have hi : (findAnyLink store (gen i)).isSome = true :=
        h i (Nat.le_refl i) (by omega)
      simp only [pickFresh, hi, if_true]
      exact ih (i + 1) (fun k hk1 hk2 => h k (by omega) (by omega))

theorem pickFresh_first (store : List ShortLink) (gen : Nat → String) :
    ∀ (fuel i j : Nat), i ≤ j → j < i + fuel →
      (∀ k, i ≤ k → k < j → (findAnyLink store (gen k)).isSome = true) →
      findAnyLink store (gen j) = none →
      pickFresh store gen i fuel = some (gen j) := by
  intro fuel
  induction fuel with
  | zero => intro i j h1 h2 _ _; omega
  | succ n ih =>
      intro i j hij hlt hcoll hfree
      by_cases hji : j = i
      · subst hji
        have hb : (findAnyLink store (gen j)).isSome = false := by
          rw [hfree]; rfl
        simp [pickFresh, hb]
      · have hi : (findAnyLink store (gen i)).isSome = true :=
          hcoll i (Nat.le_refl i) (by omega)
        simp only [pickFresh, hi, if_true]
        exact ih (i + 1) j (by omega) (by omega)
          (fun k hk1 hk2 => hcoll k (by omega) hk2) hfree

theorem pickFresh_some (store : List ShortLink) (gen : Nat → String) :
    ∀ (fuel i : Nat) (c : String),
      pickFresh store gen i fuel = some c → ∃ j, c = gen j := by
  intro fuel
  induction fuel with
  | zero => intro i c h; simp [pickFresh] at h
  | succ n ih =>
      intro i c h
      simp only [pickFresh] at h
      split at h
      · exact ih (i + 1) c h
      · exact ⟨i, (Option.some_inj.1 h).symm⟩

theorem generate_short_code_length (choice : Nat → Nat) (n : Nat) :
    (generate_short_code choice n).length = n := by
  simp [generate_short_code, String.length]

/-- C4: when every one of the 10 generated candidates collides with an
existing row, create without a custom code fails with the HTTP 500
generation-exhausted error and the store is unchanged; and when the first
`j < 10` candidates collide but candidate `j` is fresh, create stops at
attempt `j` and persists exactly that candidate. -/
theorem C4_generation_bounded :
    (∀ (store : List ShortLink) (choices : Nat → Nat → Nat) (url : String)
        (note : Option String) (now : Nat),
      (∀ i, i < 10 →
        ∃ l ∈ store, l.short_code = generate_short_code (choices i) 7) →
      create_link store choices url none note now =
        (store, Except.error CreateError.generationExhausted))
    ∧ (∀ (store : List ShortLink) (choices : Nat → Nat → Nat) (url : String)
        (note : Option String) (now : Nat) (j : Nat), j < 10 →
      (∀ i, i < j →
        ∃ l ∈ store, l.short_code = generate_short_code (choices i) 7) →
      (∀ l ∈ store, l.short_code ≠ generate_short_code (choices j) 7) →
      create_link store choices url none note now =
        (store ++ [mkLink (generate_short_code (choices j) 7) url note now],
          Except.ok (mkLink (generate_short_code (choices j) 7) url note now))) := by
  constructor
  · intro store choices url note now h
    have hp : pickFresh store
        (fun i => generate_short_code (choices i) 7) 0 10 = none :=
      pickFresh_none store _ 10 0
        (fun k _ hk2 => (findAnyLink_isSome_iff store _).2 (h k (by omega)))
    simp [create_link, autoCreate, hp]
  · intro store choices url note now j hj hcoll hfree
    have hp : pickFresh store
        (fun i => generate_short_code (choices i) 7) 0 10 =
          some (generate_short_code (choices j) 7) :=
      pickFresh_first store _ 10 0 j (Nat.zero_le j) (by omega)
        (fun k _ hk2 => (findAnyLink_isSome_iff store _).2 (hcoll k hk2))
        ((findAnyLink_eq_none_iff store _).2 hfree)
    simp [create_link, autoCreate, hp]

/-- Witness for C4: against a store holding the only candidate the
degenerate choice function can produce, all 10 attempts collide. -/
theorem C4_generation_bounded_witness :
    create_link [mkLink "aaaaaaa" "http://t" none 0] (fun _ _ => 0)
        "https://e.x/" none none 1 =
      ([mkLink "aaaaaaa" "http://t" none 0],
        Except.error CreateError.generationExhausted) := by
  have h0 : (mkLink "aaaaaaa" "http://t" none 0).short_code =
      generate_short_code (fun _ => 0) 7 := by decide
  exact C4_generation_bounded.1 [mkLink "aaaaaaa" "http://t" none 0]
    (fun _ _ => 0) "https://e.x/" none 1
    (fun _ _ => ⟨mkLink "aaaaaaa" "http://t" none 0, by simp, h0⟩)

/-! ### Custom codes (C5, C3, C10) -/

/-- C5: a create request with a (truthy) custom code already present in the
store — active or not — fails with the 400 custom-code-taken error and the
store is unchanged; consequently a second sequential create with the same
custom code as a prior successful one always fails that way. -/
theorem C5_custom_code_conflict :
    (∀ (store : List ShortLink) (choices : Nat → Nat → Nat) (url : String)
        (note : Option String) (now : Nat) (cc : String), cc ≠ "" →
      (∃ l ∈ store, l.short_code = cc) →
      create_link store choices url (some cc) note now =
        (store, Except.error CreateError.customCodeTaken))
    ∧ (∀ (store : List ShortLink) (choices choices2 : Nat → Nat → Nat)
        (url url2 : String) (note note2 : Option String) (now now2 : Nat)
        (cc : String) (link : ShortLink), cc ≠ "" →
      (create_link store choices url (some cc) note now).2 = Except.ok link →
      create_link (create_link store choices url (some cc) note now).1
          choices2 url2 (some cc) note2 now2 =
        ((create_link store choices url (some cc) note now).1,
          Except.error CreateError.customCodeTaken)) := by
  have hmain : ∀ (store : List ShortLink) (choices : Nat → Nat → Nat)
      (url : String) (note : Option String) (now : Nat) (cc : String),
      cc ≠ "" → (∃ l ∈ store, l.short_code = cc) →
      create_link store choices url (some cc) note now =
        (store, Except.error CreateError.customCodeTaken) := by
    intro store choices url note now cc hcc hex
    have he : (findAnyLink store cc).isSome = true :=
      (findAnyLink_isSome_iff store cc).2 hex
    simp [create_link, hcc, he]
  refine ⟨hmain, ?_⟩
  intro store choices choices2 url url2 note note2 now now2 cc link hcc hok
  by_cases he : (findAnyLink store cc).isSome
  · exact absurd hok (by simp [create_link, hcc, he])
  · have h1 : (create_link store choices url (some cc) note now).1 =
        store ++ [mkLink cc url note now] := by
      simp [create_link, hcc, he]
    rw [h1]
    exact hmain _ choices2 url2 note2 now2 cc hcc
      ⟨mkLink cc url note now, by simp, rfl⟩

/-- Witness for C5 on a concrete one-row store. -/
theorem C5_custom_code_conflict_witness :
    create_link [mkLink "promo" "http://t" none 0] (fun _ _ => 0)
        "https://e.x/" (some "promo") none 1 =
      ([mkLink "promo" "http://t" none 0],
        Except.error CreateError.customCodeTaken) :=
  C5_custom_code_conflict.1 [mkLink "promo" "http://t" none 0] (fun _ _ => 0)
    "https://e.x/" none 1 "promo" (by decide)
    ⟨mkLink "promo" "http://t" none 0, by simp, rfl⟩

/-- C3 counterexample: the custom code "!!!" violates any alphanumeric-safe
charset, yet `create_link` on the empty store accepts it verbatim — the
outcome is a successful insert, not a validation rejection, and the store is
written. -/
theorem C3_counterexample_no_validation :
    (create_link [] (fun _ _ => 0) "https://example.com/x" (some "!!!")
        none 0).1 = [mkLink "!!!" "https://example.com/x" none 0]
    ∧ (create_link [] (fun _ _ => 0) "https://example.com/x" (some "!!!")
        none 0).2 = Except.ok (mkLink "!!!" "https://example.com/x" none 0) :=
  ⟨rfl, rfl⟩

/-- C3 (amended): `create_link` performs no charset or length validation on
custom codes — every truthy custom code, whatever its characters or length,
is either inserted verbatim (when no row has it) or rejected with the
custom-code-taken error (when one does); no validation-rejection path
exists. -/
theorem C3_no_custom_code_validation :
    ∀ (store : List ShortLink) (choices : Nat → Nat → Nat) (url : String)
      (note : Option String) (now : Nat) (cc : String), cc ≠ "" →
      ((∀ l ∈ store, l.short_code ≠ cc) →
        create_link store choices url (some cc) note now =
          (store ++ [mkLink cc url note now],
            Except.ok (mkLink cc url note now)))
      ∧ ((∃ l ∈ store, l.short_code = cc) →
        create_link store choices url (some cc) note now =
          (store, Except.error CreateError.customCodeTaken)) := by
  intro store choices url note now cc hcc
  constructor
  · intro hfree
    have he : findAnyLink store cc = none :=
      (findAnyLink_eq_none_iff store cc).2 hfree
    simp [create_link, hcc, he]
  · intro hex
    have he : (findAnyLink store cc).isSome = true :=
      (findAnyLink_isSome_iff store cc).2 hex
    simp [create_link, hcc, he]

/-- Witness for the amended C3: the malformed code "!!!" is inserted. -/
theorem C3_no_custom_code_validation_witness :
    create_link [] (fun _ _ => 0) "https://example.com/x" (some "!!!")
        none 0 =
      ([mkLink "!!!" "https://example.com/x" none 0],
        Except.ok (mkLink "!!!" "https://example.com/x" none 0)) :=
  (C3_no_custom_code_validation [] (fun _ _ => 0) "https://example.com/x"
    none 0 "!!!" (by decide)).1 (fun _ hl => nomatch hl)

/-- C10: supplying the empty string as custom code is Python-falsy, so
`create_link` behaves exactly as with no custom code — it runs the
auto-generation loop — and any link it then returns carries a generated
7-character code. -/
theorem C10_empty_custom_code :
    ∀ (store : List ShortLink) (choices : Nat → Nat → Nat) (url : String)
      (note : Option String) (now : Nat),
      create_link store choices url (some "") note now =
        create_link store choices url none note now
      ∧ ∀ link, (create_link store choices url (some "") note now).2 =
          Except.ok link → link.short_code.length = 7 := by
  intro store choices url note now
  constructor
  · simp [create_link]
  · intro link hok
    have hok2 : (autoCreate store choices url note now).2 = Except.ok link := by
      simpa [create_link] using hok
    revert hok2
    unfold autoCreate
    cases hp : pickFresh store
        (fun i => generate_short_code (choices i) 7) 0 10 with
    | none => intro hok2; exact absurd hok2 (by simp)
    | some c =>
        intro hok2
        rcases pickFresh_some store _ 10 0 c hp with ⟨j, rfl⟩
        have hlink : link =
            mkLink (generate_short_code (choices j) 7) url note now := by
          simpa using hok2.symm
        rw [hlink]
        exact generate_short_code_length (choices j) 7

/-- Witness for C10: on the empty store the first generated candidate (all
choices 0, hence "aaaaaaa") is returned, and it has 7 characters. -/
theorem C10_empty_custom_code_witness :
    (mkLink "aaaaaaa" "https://e.x/" none 0).short_code.length = 7 :=
  (C10_empty_custom_code [] (fun _ _ => 0) "https://e.x/" none 0).2
    (mkLink "aaaaaaa" "https://e.x/" none 0) rfl
